import Mathlib

set_option allowUnsafeReducibility true

attribute [semireducible] Rat.add Rat.mul Rat.div Rat.sub Rat.neg Rat.inv Rat.normalize Rat.blt Rat.floor Rat.ceil

/-!
Shallow embedding of the `flue-frontend` repository's generation request
handler (`src/pkg/server/server.go`, function `(*Server).generate`) and its
helpers `parseFormInt`, `parseFormFloat` and `roundFloat`, together with the
`Server` configuration structure (`src/pkg/server/server.go`) built by
`server.New` from the CLI flags (`src/main.go`).

Modelling conventions:
* Form extraction (`c.FormValue`) yields the empty string for an absent
  field, so an incoming request is modelled as the six extracted strings.
* Go `int` is 64-bit here; `strconv.Atoi` is modelled exactly (optional
  sign, decimal digits, int64 range check folded into parse failure,
  matching `parseFormInt` which treats any `Atoi` error as invalid).
* Go `float64` values produced by `strconv.ParseFloat` are modelled by
  `GoFloat`: `NaN`, signed infinity, or an exact rational.  The decimal
  grammar (optional sign, digits with optional fraction and exponent, and
  the case-insensitive specials `Inf`/`Infinity` with optional sign and
  unsigned `NaN`) is modelled; digit-separating underscores, hexadecimal
  floats and rounding of the exact decimal value to binary float64 are
  abstracted away (no claim depends on them).  Comparisons with a NaN
  operand are false, as in Go.
* `json.Marshal` of the `map[string]any` payload is modelled by its only
  observable effects here: it fails exactly when a value is a NaN or
  infinite float (`json: unsupported value`), and otherwise produces the
  payload; Go's alphabetical ordering of marshalled map keys is abstracted
  (the payload is kept as the association list in insertion order).
* The backend interaction (`http.Post`, `io.ReadAll`, `json.Unmarshal`) is
  modelled by a `BackendResult` parameter: network failure, body read
  failure, or a response whose body either is not valid JSON (`none`) or
  parses to a `Json` value.  `json.Unmarshal` into `map[string]any`
  succeeds exactly on a JSON object (last binding wins for duplicate keys)
  or JSON `null` (which leaves the map nil, so every lookup misses).
* Each `c.String`/`c.Render` call appends one entry to the trace's
  `responses` list (the handler under inspection can reach `c.String`
  twice because the seed branch does not return); each `http.Post` appends
  one entry to `calls`.  Elapsed wall time is a rational parameter and the
  response texts are modelled by the structured `Msg` type, one
  constructor per distinct format string in the source.
-/

/-- Character class `0`-`9`, as used by `strconv` digit scanning. -/
def isDigitCh (c : Char) : Bool := decide ('0' ≤ c) && decide (c ≤ '9')

/-- The numeric value of a nonempty all-digit character list; `none` if the
list is empty or contains a non-digit. -/
def digitsVal (cs : List Char) : Option Nat :=
  if cs = [] then none
  else if cs.all isDigitCh then some (cs.foldl (fun a c => a * 10 + (c.toNat - 48)) 0)
  else none

/-- `math.MinInt` for 64-bit Go `int`. -/
def intMin : Int := -(2 ^ 63)

/-- `math.MaxInt` for 64-bit Go `int`. -/
def intMax : Int := 2 ^ 63 - 1

/-- Model of `strconv.Atoi`: an optional sign followed by at least one
decimal digit, with the int64 range check (`strconv.ErrRange` is an error
for `Atoi`, hence `none` here). -/
def atoi (s : String) : Option Int :=
  let signAndDigits : Bool × List Char :=
    match s.toList with
    | '-' :: r => (true, r)
    | '+' :: r => (false, r)
    | r => (false, r)
  match digitsVal signAndDigits.2 with
  | none => none
  | some n =>
    let v : Int := if signAndDigits.1 then -(n : Int) else (n : Int)
    if v < intMin ∨ intMax < v then none else some v

/-- Equality on `Except` is decidable when it is on both components (used
only to evaluate the model at concrete inputs). -/
def exceptDecEq {ε α : Type} [DecidableEq ε] [DecidableEq α] : DecidableEq (Except ε α)
  | .error a, .error b =>
    if h : a = b then isTrue (by rw [h])
    else isFalse (by intro hc; cases hc; exact h rfl)
  | .error _, .ok _ => isFalse (by intro hc; cases hc)
  | .ok _, .error _ => isFalse (by intro hc; cases hc)
  | .ok a, .ok b =>
    if h : a = b then isTrue (by rw [h])
    else isFalse (by intro hc; cases hc; exact h rfl)

instance {ε α : Type} [DecidableEq ε] [DecidableEq α] : DecidableEq (Except ε α) :=
  exceptDecEq

/-- The two error shapes produced by `parseFormInt`
(`invalid integer: %s` and `value out of range: %d (expected between %d and %d)`). -/
inductive IntErr where
  | invalid (s : String)
  | outOfRange (v lo hi : Int)
deriving DecidableEq

/-- Model of `parseFormInt(field, min, max)` from `server.go`. -/
def parseFormInt (field : String) (min max : Int) : Except IntErr Int :=
  match atoi field with
  | none => .error (.invalid field)
  | some val =>
    if val < min ∨ max < val then .error (.outOfRange val min max)
    else .ok val

/-- A Go `float64` as produced by `strconv.ParseFloat`: NaN, a signed
infinity, or a finite value (kept exact as a rational). -/
inductive GoFloat where
  | nan
  | inf (neg : Bool)
  | finite (q : ℚ)
deriving DecidableEq

/-- Go `<` on float64: any comparison with NaN is false; infinities are
extreme; finite values compare as rationals. -/
def GoFloat.lt : GoFloat → GoFloat → Bool
  | .nan, _ => false
  | _, .nan => false
  | .inf true, .inf true => false
  | .inf true, _ => true
  | _, .inf true => false
  | .inf false, _ => false
  | _, .inf false => true
  | .finite a, .finite b => decide (a < b)

/-- ASCII lower-casing, for `ParseFloat`'s case-insensitive specials. -/
def lowerCh (c : Char) : Char :=
  if 'A' ≤ c ∧ c ≤ 'Z' then Char.ofNat (c.toNat + 32) else c

/-- Longest digit prefix of a character list, with the rest. -/
def splitDigits : List Char → List Char × List Char
  | [] => ([], [])
  | c :: r =>
    if isDigitCh c then
      let p := splitDigits r
      (c :: p.1, p.2)
    else ([], c :: r)

/-- Value of a digit list read in base 10 (empty list reads as 0). -/
def natOfDigits (cs : List Char) : Nat :=
  cs.foldl (fun a c => a * 10 + (c.toNat - 48)) 0

/-- Unsigned decimal mantissa with optional fraction and exponent:
`digits [. digits] [e [sign] digits]`, at least one mantissa digit. -/
def parseDec (cs : List Char) : Option ℚ :=
  let ipPart := splitDigits cs
  let fpPart : List Char × List Char :=
    match ipPart.2 with
    | '.' :: r => splitDigits r
    | r => ([], r)
  if ipPart.1 = [] ∧ fpPart.1 = [] then none
  else
    let mant : ℚ := (natOfDigits ipPart.1 : ℚ) + (natOfDigits fpPart.1 : ℚ) / 10 ^ fpPart.1.length
    match fpPart.2 with
    | [] => some mant
    | e :: r =>
      if e = 'e' then
        let expPart : Bool × List Char :=
          match r with
          | '-' :: r2 => (true, r2)
          | '+' :: r2 => (false, r2)
          | r2 => (false, r2)
        match digitsVal expPart.2 with
        | none => none
        | some ex => some (if expPart.1 then mant / 10 ^ ex else mant * 10 ^ ex)
      else none

/-- Model of `strconv.ParseFloat(s, 64)` (see the header for the abstractions):
case-insensitive `NaN` (unsigned) and `Inf`/`Infinity` (optionally signed),
otherwise a signed decimal number. -/
def parseFloat (s : String) : Option GoFloat :=
  let low := s.toList.map lowerCh
  if low = ['n', 'a', 'n'] then some .nan
  else
    let signAndRest : Bool × List Char :=
      match low with
      | '-' :: r => (true, r)
      | '+' :: r => (false, r)
      | r => (false, r)
    if signAndRest.2 = ['i', 'n', 'f'] ∨ signAndRest.2 = ['i', 'n', 'f', 'i', 'n', 'i', 't', 'y'] then
      some (.inf signAndRest.1)
    else
      match parseDec signAndRest.2 with
      | none => none
      | some q => some (.finite (if signAndRest.1 then -q else q))

/-- The two error shapes produced by `parseFormFloat`
(`invalid float: %s` and `value out of range: %f (expected between %f and %f)`). -/
inductive FloatErr where
  | invalid (s : String)
  | outOfRange (v : GoFloat) (lo hi : ℚ)
deriving DecidableEq

/-- Model of `parseFormFloat(field, min, max)` from `server.go`; note the
range test `val < min || val > max` is false on both sides for NaN. -/
def parseFormFloat (field : String) (min max : ℚ) : Except FloatErr GoFloat :=
  match parseFloat field with
  | none => .error (.invalid field)
  | some val =>
    if val.lt (.finite min) ∨ (GoFloat.finite max).lt val then
      .error (.outOfRange val min max)
    else .ok val

/-- `math.Round`: round half away from zero (modelled over ℚ). -/
def goRound (x : ℚ) : ℤ :=
  if 0 ≤ x then ⌊x + 1 / 2⌋ else ⌈x - 1 / 2⌉

/-- Model of `roundFloat(val, precision)` from `server.go`:
`math.Round(val*ratio) / ratio` with `ratio = 10^precision`. -/
def roundFloat (val : ℚ) (precision : ℕ) : ℚ :=
  (goRound (val * 10 ^ precision) : ℚ) / 10 ^ precision

/-- A JSON value (for the payload this is never needed; for the backend
response body it is what `json.Unmarshal` would produce). -/
inductive Json where
  | null
  | bool (b : Bool)
  | num (q : ℚ)
  | str (s : String)
  | arr (elts : List Json)
  | obj (fields : List (String × Json))

/-- `json.Unmarshal(body, &result)` with `result : map[string]any`:
succeeds on a JSON object (the binding list) and on JSON `null` (nil map,
i.e. no bindings), fails on every other JSON value. -/
def unmarshalMap : Json → Option (List (String × Json))
  | .obj fields => some fields
  | .null => some []
  | _ => none

/-- Go map lookup on the unmarshalled bindings: for duplicate JSON keys the
last binding wins, a missing key yields `nil` (`none`). -/
def mapLookup (k : String) (kvs : List (String × Json)) : Option Json :=
  (kvs.reverse.find? (fun kv => kv.1 = k)).map (fun kv => kv.2)

/-- A value stored in the `map[string]any` payload. -/
inductive PVal where
  | str (s : String)
  | int (n : Int)
  | float (f : GoFloat)
deriving DecidableEq

/-- Whether `json.Marshal` can encode the value: everything here except a
NaN or infinite float64. -/
def PVal.marshalable : PVal → Bool
  | .float .nan => false
  | .float (.inf _) => false
  | _ => true

/-- `json.Marshal` succeeds on the payload iff every value is encodable. -/
def marshalOk (payload : List (String × PVal)) : Bool :=
  payload.all (fun kv => kv.2.marshalable)

/-- The structured content of each response text the handler can produce,
one constructor per distinct message in the source. -/
inductive Msg where
  | promptRequired
  | widthInvalid (e : IntErr)
  | heightInvalid (e : IntErr)
  | stepsInvalid (e : IntErr)
  | guidanceInvalid (e : FloatErr)
  | seedInvalid (e : IntErr)
  | encodeFailed
  | callFailed
  | readFailed
  | parseRespFailed
deriving DecidableEq

/-- One write to the HTTP response: `c.String(status, msg)` or
`c.Render(status, template, data)` with the result data fields. -/
inductive Response where
  | text (status : Nat) (msg : Msg)
  | render (status : Nat) (tmpl : String) (image : Option Json) (genTime : ℚ)

/-- The HTTP status of a response write. -/
def Response.status : Response → Nat
  | .text st _ => st
  | .render st _ _ _ => st

/-- One outbound `http.Post`. -/
structure Call where
  url : String
  contentType : String
  payload : List (String × PVal)

/-- Everything one handler invocation writes: HTTP responses in order, and
outbound backend calls in order. -/
structure Trace where
  responses : List Response
  calls : List Call

/-- The server configuration built by `server.New(host, port, backend)`;
the `Echo` engine field is wiring and not modelled. -/
structure Server where
  Host : String
  Port : Int
  Backend : String

/-- The six form fields extracted by the handler; `c.FormValue` yields `""`
for an absent field. -/
structure Request where
  prompt : String
  width : String
  height : String
  num_steps : String
  guidance_scale : String
  seed : String

/-- Outcome of the backend interaction: `http.Post` error, `io.ReadAll`
error, or a response with an HTTP status and a body that either fails to
parse as JSON (`none`) or parses to a `Json` value. -/
inductive BackendResult where
  | netError
  | readError
  | response (status : Nat) (body : Option Json)

/-- The URL string hard-coded in the `http.Post` call of `generate`. -/
def backendURL : String := "http://localhost:8000/v1/images/generations"

/-- Model of `(*Server).generate` from `server.go`, line by line: validate
prompt/width/height/num_steps/guidance_scale, build the payload, handle the
optional seed (note the source's seed-error branch calls `c.String` without
returning, then stores the zero-valued seed), marshal, post to the
hard-coded URL, and map the backend outcome to a response. -/
def generate (srv : Server) (req : Request) (backend : BackendResult) (elapsed : ℚ) : Trace :=
  let prompt := req.prompt
  let widthStr := req.width
  let heightStr := req.height
  let numStepsStr := req.num_steps
  let guidanceScaleStr := req.guidance_scale
  let seedStr := req.seed
  if prompt = "" then ⟨[.text 400 .promptRequired], []⟩
  else
    match parseFormInt widthStr 64 1024 with
    | .error e => ⟨[.text 400 (.widthInvalid e)], []⟩
    | .ok width =>
      match parseFormInt heightStr 64 1024 with
      | .error e => ⟨[.text 400 (.heightInvalid e)], []⟩
      | .ok height =>
        match parseFormInt numStepsStr 1 10 with
        | .error e => ⟨[.text 400 (.stepsInvalid e)], []⟩
        | .ok numSteps =>
          match parseFormFloat guidanceScaleStr 0 10 with
          | .error e => ⟨[.text 400 (.guidanceInvalid e)], []⟩
          | .ok guidanceScale =>
            let payload0 : List (String × PVal) :=
              [("prompt", .str prompt), ("width", .int width), ("height", .int height),
               ("steps", .int numSteps), ("guidance", .float guidanceScale)]
            let seedStep : List Response × List (String × PVal) :=
              if seedStr ≠ "" then
                match parseFormInt seedStr intMin intMax with
                | .error e => ([.text 400 (.seedInvalid e)], payload0 ++ [("seed", .int 0)])
                | .ok seed => ([], payload0 ++ [("seed", .int seed)])
              else ([], payload0)
            let written := seedStep.1
            let payload := seedStep.2
            if !marshalOk payload then ⟨written ++ [.text 500 .encodeFailed], []⟩
            else
              let theCall : Call := ⟨backendURL, "application/json", payload⟩
              match backend with
              | .netError => ⟨written ++ [.text 500 .callFailed], [theCall]⟩
              | .readError => ⟨written ++ [.text 500 .readFailed], [theCall]⟩
              | .response _ none => ⟨written ++ [.text 500 .parseRespFailed], [theCall]⟩
              | .response _ (some j) =>
                match unmarshalMap j with
                | none => ⟨written ++ [.text 500 .parseRespFailed], [theCall]⟩
                | some result =>
                  ⟨written ++ [.render 200 "result.html" (mapLookup "image" result)
                      (roundFloat elapsed 2)], [theCall]⟩

/-- Whether a Go `(value, err)` pair, modelled as `Except`, carries an error. -/
def exceptErr {ε α : Type} : Except ε α → Bool
  | .error _ => true
  | .ok _ => false

/-- The tail of `generate` after the first five fields validated
successfully, with the parsed values as parameters (same text as the
matching part of `generate`; used to state staged lemmas). -/
def stage2 (req : Request) (backend : BackendResult) (elapsed : ℚ)
    (width height numSteps : Int) (guidanceScale : GoFloat) : Trace :=
  let seedStr := req.seed
  let payload0 : List (String × PVal) :=
    [("prompt", .str req.prompt), ("width", .int width), ("height", .int height),
     ("steps", .int numSteps), ("guidance", .float guidanceScale)]
  let seedStep : List Response × List (String × PVal) :=
    if seedStr ≠ "" then
      match parseFormInt seedStr intMin intMax with
      | .error e => ([.text 400 (.seedInvalid e)], payload0 ++ [("seed", .int 0)])
      | .ok seed => ([], payload0 ++ [("seed", .int seed)])
    else ([], payload0)
  let written := seedStep.1
  let payload := seedStep.2
  if !marshalOk payload then ⟨written ++ [.text 500 .encodeFailed], []⟩
  else
    let theCall : Call := ⟨backendURL, "application/json", payload⟩
    match backend with
    | .netError => ⟨written ++ [.text 500 .callFailed], [theCall]⟩
    | .readError => ⟨written ++ [.text 500 .readFailed], [theCall]⟩
    | .response _ none => ⟨written ++ [.text 500 .parseRespFailed], [theCall]⟩
    | .response _ (some j) =>
      match unmarshalMap j with
      | none => ⟨written ++ [.text 500 .parseRespFailed], [theCall]⟩
      | some result =>
        ⟨written ++ [.render 200 "result.html" (mapLookup "image" result)
            (roundFloat elapsed 2)], [theCall]⟩

/-- The six validated fields, in source order. -/
inductive FormField where
  | prompt
  | width
  | height
  | steps
  | guidance
  | seed
deriving DecidableEq

/-- Whether a field of a request passes its own validation test. -/
def fieldValid (req : Request) : FormField → Bool
  | .prompt => decide (req.prompt ≠ "")
  | .width => !exceptErr (parseFormInt req.width 64 1024)
  | .height => !exceptErr (parseFormInt req.height 64 1024)
  | .steps => !exceptErr (parseFormInt req.num_steps 1 10)
  | .guidance => !exceptErr (parseFormFloat req.guidance_scale 0 10)
  | .seed => decide (req.seed = "") || !exceptErr (parseFormInt req.seed intMin intMax)

/-- The fixed validation order of the handler. -/
def validationOrder : List FormField :=
  [.prompt, .width, .height, .steps, .guidance, .seed]

/-- The first field of a request, in validation order, that fails its test. -/
def firstInvalid (req : Request) : Option FormField :=
  validationOrder.find? (fun f => !fieldValid req f)

/-- Which field a 400 message text names (`none` for the 500 messages). -/
def msgField : Msg → Option FormField
  | .promptRequired => some .prompt
  | .widthInvalid _ => some .width
  | .heightInvalid _ => some .height
  | .stepsInvalid _ => some .steps
  | .guidanceInvalid _ => some .guidance
  | .seedInvalid _ => some .seed
  | _ => none

/-- Whether the backend body fails to unmarshal into `map[string]any`: the
body text is not JSON, or it is JSON other than an object or `null`. -/
def bodyUnparsable : Option Json → Bool
  | none => true
  | some j => (unmarshalMap j).isNone

/-- `n` is a nearest integer to `x`: no integer is strictly closer. -/
def NearestInt (x : ℚ) (n : ℤ) : Prop :=
  ∀ m : ℤ, |x - (n : ℚ)| ≤ |x - (m : ℚ)|

/-- At an exact half-way point, `n` is the integer away from zero. -/
def TieAway (x : ℚ) (n : ℤ) : Prop :=
  |x - (n : ℚ)| = 1 / 2 → |(n : ℚ)| = |x| + 1 / 2

/-- The server configuration with the CLI defaults of `main.go`. -/
def defaultSrv : Server :=
  { Host := "localhost", Port := 8080, Backend := "http://localhost:8000" }

/-- A well-behaved backend: HTTP 200, JSON object body with an image. -/
def okBackend : BackendResult :=
  .response 200 (some (.obj [("image", .str "img")]))

/-- A submission in which every field is valid except `seed = "oops"`. -/
def seedBugReq : Request :=
  { prompt := "a cat", width := "512", height := "512", num_steps := "4",
    guidance_scale := "3.5", seed := "oops" }

/-- A fully valid submission with no seed supplied. -/
def validReqNoSeed : Request :=
  { prompt := "a cat", width := "512", height := "384", num_steps := "4",
    guidance_scale := "3.5", seed := "" }

/-- A submission whose `guidance_scale` is the string `NaN`. -/
def nanReq : Request :=
  { prompt := "a cat", width := "512", height := "512", num_steps := "4",
    guidance_scale := "NaN", seed := "" }

/-- A server configured with a non-default backend base URL. -/
def otherBackendSrv : Server :=
  { Host := "localhost", Port := 8080, Backend := "http://gpu-box:9000" }

/-- A submission whose width is out of range (and everything else valid). -/
def widthOutOfRangeReq : Request :=
  { prompt := "a cat", width := "2000", height := "384", num_steps := "4",
    guidance_scale := "3.5", seed := "" }

/-- A fully valid submission with `seed = "42"`. -/
def seededReq : Request :=
  { prompt := "a cat", width := "512", height := "384", num_steps := "4",
    guidance_scale := "3.5", seed := "42" }

/-- A submission in which both width and height are invalid. -/
def doubleInvalidReq : Request :=
  { prompt := "a cat", width := "abc", height := "xyz", num_steps := "4",
    guidance_scale := "3.5", seed := "" }

/-- A backend answering 200 with a JSON object that has no `image` key. -/
def noImageBackend : BackendResult :=
  .response 200 (some (.obj [("other", .num 1)]))

/-- A backend answering 200 with a body that is not valid JSON. -/
def badBodyBackend : BackendResult :=
  .response 200 none

/-- C1: on a request whose only invalid field is the seed, the handler
writes a 400 response but, because the seed branch of the source lacks a
`return`, still issues the outbound backend call and then writes a second,
200 response — contradicting "returns HTTP 400 and issues zero outbound
calls". -/
theorem c1_invalid_seed_still_calls_backend :
    exceptErr (parseFormInt seedBugReq.seed intMin intMax) = true
    ∧ (generate defaultSrv seedBugReq okBackend 0).calls.length = 1
    ∧ (generate defaultSrv seedBugReq okBackend 0).responses.map Response.status
        = [400, 200] :=
  ⟨rfl, rfl, rfl⟩

/-- C3: on the invalid-seed path the handler performs two response writes
(the 400 text and then the 200 render), refuting "exactly one HTTP response
per request" on the code as written. -/
theorem c3_two_responses_on_invalid_seed :
    (generate defaultSrv seedBugReq okBackend 0).responses.length = 2 :=
  rfl

/-- C4: with a non-default configured backend, the outbound call still goes
to the hard-coded URL, which differs from `Server.Backend` concatenated
with `/v1/images/generations`; the JSON content type part does hold. -/
theorem c4_backend_config_ignored :
    (generate otherBackendSrv validReqNoSeed okBackend 0).calls.map Call.url = [backendURL]
    ∧ (generate otherBackendSrv validReqNoSeed okBackend 0).calls.map Call.contentType
        = ["application/json"]
    ∧ backendURL ≠ otherBackendSrv.Backend ++ "/v1/images/generations" :=
  ⟨rfl, rfl, by decide⟩

/-- C2 counterexample: the backend answers HTTP 500 (non-2xx) with a valid
JSON object body, yet the handler returns a single 200 render — the
backend status is never inspected. -/
theorem c2_counterexample_non2xx_yields_200 :
    (generate defaultSrv validReqNoSeed
        (.response 500 (some (.obj [("detail", .str "boom")]))) 0).responses.map
        Response.status = [200] :=
  rfl

/-- C10 counterexample: a backend body that is valid JSON but not an object
(the empty array) has no `image` key, yet the handler answers 500, not
200. -/
theorem c10_counterexample_json_array_yields_500 :
    (generate defaultSrv validReqNoSeed (.response 200 (some (.arr []))) 0).responses
      = [.text 500 .parseRespFailed] :=
  rfl

/-- C9 counterexample: `guidance_scale = "NaN"` parses and passes the range
check (both comparisons are false on NaN), so validation succeeds, yet
marshalling fails and the handler reaches the "Failed to encode JSON"
branch. -/
theorem c9_counterexample_nan_reaches_encode_branch :
    parseFormFloat nanReq.guidance_scale 0 10 = .ok .nan
    ∧ generate defaultSrv nanReq okBackend 0 = ⟨[.text 500 .encodeFailed], []⟩ :=
  ⟨rfl, rfl⟩

/-- `parseFormFloat` never succeeds with an infinite value: +Inf fails the
upper bound and -Inf the lower; a success is NaN or finite. -/
theorem parseFormFloat_ok_finite_or_nan {s : String} {lo hi : ℚ} {v : GoFloat}
    (hok : parseFormFloat s lo hi = .ok v) : v = .nan ∨ ∃ q, v = .finite q := by
  unfold parseFormFloat at hok
  split at hok
  · cases hok
  · split at hok
    · cases hok
    · injection hok with hok
      subst hok
      rename_i val heq hr
      cases val with
      | nan => exact Or.inl rfl
      | finite q => exact Or.inr ⟨q, rfl⟩
      | inf b =>
        cases b
        · exact absurd (Or.inr rfl) hr
        · exact absurd (Or.inl rfl) hr

/-- After the first five fields validate successfully, `generate` is
`stage2` on the parsed values. -/
theorem generate_valid_stage (srv : Server) (req : Request) (backend : BackendResult)
    (elapsed : ℚ) (w h st : Int) (v : GoFloat)
    (hp : ¬ req.prompt = "")
    (hw : parseFormInt req.width 64 1024 = .ok w)
    (hh : parseFormInt req.height 64 1024 = .ok h)
    (hst : parseFormInt req.num_steps 1 10 = .ok st)
    (hg : parseFormFloat req.guidance_scale 0 10 = .ok v) :
    generate srv req backend elapsed = stage2 req backend elapsed w h st v := by
  unfold generate stage2
  rw [if_neg hp, hw, hh, hst, hg]

/-- C6: whenever width, height, num_steps or guidance_scale fails to parse
or is out of its declared range, the handler writes a single 400 response
and issues zero outbound calls. -/
theorem c6_invalid_field_400_no_call (srv : Server) (req : Request)
    (backend : BackendResult) (elapsed : ℚ)
    (hinv : exceptErr (parseFormInt req.width 64 1024) = true
      ∨ exceptErr (parseFormInt req.height 64 1024) = true
      ∨ exceptErr (parseFormInt req.num_steps 1 10) = true
      ∨ exceptErr (parseFormFloat req.guidance_scale 0 10) = true) :
    ∃ m, (generate srv req backend elapsed).responses = [.text 400 m]
      ∧ (generate srv req backend elapsed).calls = [] := by
  unfold generate
  by_cases hp : req.prompt = ""
  · rw [if_pos hp]
    exact ⟨.promptRequired, rfl, rfl⟩
  · rw [if_neg hp]
    cases hw : parseFormInt req.width 64 1024 with
    | error e => exact ⟨.widthInvalid e, rfl, rfl⟩
    | ok w =>
      cases hh : parseFormInt req.height 64 1024 with
      | error e => exact ⟨.heightInvalid e, rfl, rfl⟩
      | ok h =>
        cases hst : parseFormInt req.num_steps 1 10 with
        | error e => exact ⟨.stepsInvalid e, rfl, rfl⟩
        | ok st =>
          cases hg : parseFormFloat req.guidance_scale 0 10 with
          | error e => exact ⟨.guidanceInvalid e, rfl, rfl⟩
          | ok v =>
            rw [hw, hh, hst, hg] at hinv
            simp [exceptErr] at hinv

/-- C6 witness: a width of 2000 yields a 400 and no outbound call. -/
theorem c6_invalid_field_400_no_call_witness :
    exceptErr (parseFormInt widthOutOfRangeReq.width 64 1024) = true
    ∧ ∃ m, (generate defaultSrv widthOutOfRangeReq okBackend 0).responses = [.text 400 m]
      ∧ (generate defaultSrv widthOutOfRangeReq okBackend 0).calls = [] :=
  ⟨by decide,
   c6_invalid_field_400_no_call defaultSrv widthOutOfRangeReq okBackend 0
     (Or.inl (by decide))⟩

/-- Strings always marshal. -/
theorem marshalable_str (s : String) : (PVal.str s).marshalable = true := rfl

/-- Integers always marshal. -/
theorem marshalable_int (n : Int) : (PVal.int n).marshalable = true := rfl

/-- Finite floats always marshal. -/
theorem marshalable_finite (q : ℚ) : (PVal.float (.finite q)).marshalable = true := rfl

/-- C5: on a valid submission (finite guidance value), the handler issues
exactly one outbound call whose payload has exactly the keys prompt, width,
height, steps, guidance — values equal to the parsed inputs — plus seed
if and only if the seed form field was supplied non-empty. -/
theorem c5_payload_exact (srv : Server) (req : Request) (backend : BackendResult)
    (elapsed : ℚ) (w h st sd : Int) (g : ℚ)
    (hp : ¬ req.prompt = "")
    (hw : parseFormInt req.width 64 1024 = .ok w)
    (hh : parseFormInt req.height 64 1024 = .ok h)
    (hst : parseFormInt req.num_steps 1 10 = .ok st)
    (hg : parseFormFloat req.guidance_scale 0 10 = .ok (.finite g))
    (hsd : req.seed ≠ "" → parseFormInt req.seed intMin intMax = .ok sd) :
    (generate srv req backend elapsed).calls.map Call.payload =
      [[("prompt", PVal.str req.prompt), ("width", PVal.int w), ("height", PVal.int h),
        ("steps", PVal.int st), ("guidance", PVal.float (.finite g))]
        ++ (if req.seed = "" then [] else [("seed", PVal.int sd)])] := by
  rw [generate_valid_stage srv req backend elapsed w h st _ hp hw hh hst hg]
  unfold stage2
  by_cases hs : req.seed = ""
  · simp only [hs, ne_eq, not_true_eq_false, if_neg, ite_false, if_false]
    cases backend with
    | netError => simp [marshalOk, marshalable_str, marshalable_int, marshalable_finite]
    | readError => simp [marshalOk, marshalable_str, marshalable_int, marshalable_finite]
    | response bst body =>
      cases body with
      | none => simp [marshalOk, marshalable_str, marshalable_int, marshalable_finite]
      | some j =>
        cases hu : unmarshalMap j with
        | none => simp [marshalOk, marshalable_str, marshalable_int, marshalable_finite, hu]
        | some result => simp [marshalOk, marshalable_str, marshalable_int, marshalable_finite, hu]
  · have hsd' := hsd hs
    cases backend with
    | netError => simp [hs, hsd', marshalOk, marshalable_str, marshalable_int, marshalable_finite]
    | readError => simp [hs, hsd', marshalOk, marshalable_str, marshalable_int, marshalable_finite]
    | response bst body =>
      cases body with
      | none => simp [hs, hsd', marshalOk, marshalable_str, marshalable_int, marshalable_finite]
      | some j =>
        cases hu : unmarshalMap j with
        | none => simp [hs, hsd', marshalOk, marshalable_str, marshalable_int, marshalable_finite, hu]
        | some result => simp [hs, hsd', marshalOk, marshalable_str, marshalable_int, marshalable_finite, hu]

/-- C5 witness: the valid request with seed 42 yields exactly one call with
the six-key payload and seed 42. -/
theorem c5_payload_exact_witness :
    (¬ seededReq.prompt = "")
    ∧ parseFormFloat seededReq.guidance_scale 0 10 = .ok (.finite (7 / 2))
    ∧ (generate defaultSrv seededReq okBackend 0).calls.map Call.payload =
        [[("prompt", PVal.str seededReq.prompt), ("width", PVal.int 512),
          ("height", PVal.int 384), ("steps", PVal.int 4),
          ("guidance", PVal.float (.finite (7 / 2)))]
          ++ (if seededReq.seed = "" then [] else [("seed", PVal.int 42)])] :=
  ⟨by decide, by decide,
   c5_payload_exact defaultSrv seededReq okBackend 0 512 384 4 42 (7 / 2)
     (by decide) (by decide) (by decide) (by decide) (by decide)
     (fun _ => by decide)⟩

/-- C2 (amended): for a validated request, whenever the backend body fails
to unmarshal into `map[string]any` (not JSON, or JSON other than an
object/null), the final response is the 500 "Failed to parse JSON
response" and no 200 is ever written; the backend HTTP status plays no
role in this. -/
theorem c2_unparsable_body_500 (srv : Server) (req : Request) (elapsed : ℚ)
    (bst : Nat) (body : Option Json) (w h st : Int) (v : GoFloat)
    (hp : ¬ req.prompt = "")
    (hw : parseFormInt req.width 64 1024 = .ok w)
    (hh : parseFormInt req.height 64 1024 = .ok h)
    (hst : parseFormInt req.num_steps 1 10 = .ok st)
    (hg : parseFormFloat req.guidance_scale 0 10 = .ok v)
    (hv : (PVal.float v).marshalable = true)
    (hbody : bodyUnparsable body = true) :
    (generate srv req (.response bst body) elapsed).responses.getLast?
        = some (.text 500 .parseRespFailed)
    ∧ ∀ r ∈ (generate srv req (.response bst body) elapsed).responses,
        r.status ≠ 200 := by
  rw [generate_valid_stage srv req _ elapsed w h st v hp hw hh hst hg]
  unfold stage2
  by_cases hs : req.seed = ""
  · cases body with
    | none =>
      simp [hs, marshalOk, marshalable_str, marshalable_int, hv, Response.status,
        List.getLast?]
    | some j =>
      have hj : unmarshalMap j = none := by
        unfold bodyUnparsable at hbody
        exact Option.isNone_iff_eq_none.mp hbody
      simp [hs, marshalOk, marshalable_str, marshalable_int, hv, hj, Response.status,
        List.getLast?]
  · cases hsd : parseFormInt req.seed intMin intMax with
    | error e =>
      cases body with
      | none =>
        simp [hs, hsd, marshalOk, marshalable_str, marshalable_int, hv, Response.status,
          List.getLast?]
      | some j =>
        have hj : unmarshalMap j = none := by
          unfold bodyUnparsable at hbody
          exact Option.isNone_iff_eq_none.mp hbody
        simp [hs, hsd, marshalOk, marshalable_str, marshalable_int, hv, hj,
          Response.status, List.getLast?]
    | ok sd =>
      cases body with
      | none =>
        simp [hs, hsd, marshalOk, marshalable_str, marshalable_int, hv, Response.status,
          List.getLast?]
      | some j =>
        have hj : unmarshalMap j = none := by
          unfold bodyUnparsable at hbody
          exact Option.isNone_iff_eq_none.mp hbody
        simp [hs, hsd, marshalOk, marshalable_str, marshalable_int, hv, hj,
          Response.status, List.getLast?]

/-- C2 witness: valid request, backend 200 with a non-JSON body. -/
theorem c2_unparsable_body_500_witness :
    bodyUnparsable none = true
    ∧ (generate defaultSrv validReqNoSeed (.response 200 none) 0).responses.getLast?
        = some (.text 500 .parseRespFailed)
    ∧ ∀ r ∈ (generate defaultSrv validReqNoSeed (.response 200 none) 0).responses,
        r.status ≠ 200 := by
  refine ⟨rfl, ?_⟩
  exact c2_unparsable_body_500 defaultSrv validReqNoSeed 0 200 none 512 384 4
    (.finite (7 / 2)) (by decide) (by decide) (by decide) (by decide) (by decide)
    rfl rfl

/-- C10 (amended): for a validated request, a backend body that unmarshals
into `map[string]any` — a valid JSON object, or JSON `null` (nil map) —
and has no `image` key yields a 200 render of the result fragment with an
absent (`nil`) image value. -/
theorem c10_missing_image_renders_200_nil (srv : Server) (req : Request)
    (elapsed : ℚ) (bst : Nat) (j : Json) (kvs : List (String × Json))
    (w h st : Int) (v : GoFloat)
    (hp : ¬ req.prompt = "")
    (hw : parseFormInt req.width 64 1024 = .ok w)
    (hh : parseFormInt req.height 64 1024 = .ok h)
    (hst : parseFormInt req.num_steps 1 10 = .ok st)
    (hg : parseFormFloat req.guidance_scale 0 10 = .ok v)
    (hv : (PVal.float v).marshalable = true)
    (hj : unmarshalMap j = some kvs)
    (himg : (mapLookup "image" kvs).isNone = true) :
    (generate srv req (.response bst (some j)) elapsed).responses.getLast?
      = some (.render 200 "result.html" none (roundFloat elapsed 2)) := by
  rw [generate_valid_stage srv req _ elapsed w h st v hp hw hh hst hg]
  unfold stage2
  have himg' : mapLookup "image" kvs = none := Option.isNone_iff_eq_none.mp himg
  by_cases hs : req.seed = ""
  · simp [hs, marshalOk, marshalable_str, marshalable_int, hv, hj, himg',
      List.getLast?]
  · cases hsd : parseFormInt req.seed intMin intMax with
    | error e =>
      simp [hs, hsd, marshalOk, marshalable_str, marshalable_int, hv, hj,
        himg', List.getLast?]
    | ok sd =>
      simp [hs, hsd, marshalOk, marshalable_str, marshalable_int, hv, hj,
        himg', List.getLast?]

/-- C10 witness: valid request, backend 200 — once with an object lacking
`image`, once with a JSON `null` body; both render 200 with a nil image. -/
theorem c10_missing_image_renders_200_nil_witness :
    (unmarshalMap (.obj [("other", Json.num 1)]) = some [("other", Json.num 1)]
      ∧ (mapLookup "image" [("other", Json.num 1)]).isNone = true
      ∧ (generate defaultSrv validReqNoSeed noImageBackend 0).responses.getLast?
          = some (.render 200 "result.html" none (roundFloat 0 2)))
    ∧ (unmarshalMap .null = some []
      ∧ (mapLookup "image" ([] : List (String × Json))).isNone = true
      ∧ (generate defaultSrv validReqNoSeed (.response 200 (some .null)) 0).responses.getLast?
          = some (.render 200 "result.html" none (roundFloat 0 2))) :=
  ⟨⟨rfl, rfl,
    c10_missing_image_renders_200_nil defaultSrv validReqNoSeed 0 200
      (.obj [("other", Json.num 1)]) [("other", Json.num 1)] 512 384 4
      (.finite (7 / 2)) (by decide) (by decide) (by decide) (by decide) (by decide)
      rfl rfl rfl⟩,
   ⟨rfl, rfl,
    c10_missing_image_renders_200_nil defaultSrv validReqNoSeed 0 200
      .null [] 512 384 4
      (.finite (7 / 2)) (by decide) (by decide) (by decide) (by decide) (by decide)
      rfl rfl rfl⟩⟩

/-- As long as the guidance value marshals, `stage2` never writes the
"Failed to encode JSON" response (the other payload values are strings and
integers, which always marshal). -/
theorem stage2_no_encode (req : Request) (backend : BackendResult) (elapsed : ℚ)
    (w h st : Int) (v : GoFloat)
    (hv : (PVal.float v).marshalable = true) :
    Response.text 500 .encodeFailed ∉ (stage2 req backend elapsed w h st v).responses := by
  unfold stage2
  by_cases hs : req.seed = ""
  · cases backend with
    | netError => simp [hs, marshalOk, marshalable_str, marshalable_int, hv]
    | readError => simp [hs, marshalOk, marshalable_str, marshalable_int, hv]
    | response bst body =>
      cases body with
      | none => simp [hs, marshalOk, marshalable_str, marshalable_int, hv]
      | some j =>
        cases hu : unmarshalMap j <;>
          simp [hs, marshalOk, marshalable_str, marshalable_int, hv, hu]
  · cases hsd : parseFormInt req.seed intMin intMax with
    | error e =>
      cases backend with
      | netError => simp [hs, hsd, marshalOk, marshalable_str, marshalable_int, hv]
      | readError => simp [hs, hsd, marshalOk, marshalable_str, marshalable_int, hv]
      | response bst body =>
        cases body with
        | none => simp [hs, hsd, marshalOk, marshalable_str, marshalable_int, hv]
        | some j =>
          cases hu : unmarshalMap j <;>
            simp [hs, hsd, marshalOk, marshalable_str, marshalable_int, hv, hu]
    | ok sd =>
      cases backend with
      | netError => simp [hs, hsd, marshalOk, marshalable_str, marshalable_int, hv]
      | readError => simp [hs, hsd, marshalOk, marshalable_str, marshalable_int, hv]
      | response bst body =>
        cases body with
        | none => simp [hs, hsd, marshalOk, marshalable_str, marshalable_int, hv]
        | some j =>
          cases hu : unmarshalMap j <;>
            simp [hs, hsd, marshalOk, marshalable_str, marshalable_int, hv, hu]

/-- C9 (amended): the "Failed to encode JSON" branch is unreachable for
every request whose guidance_scale does not parse to NaN; NaN — which the
range check fails to reject — is the only value that both passes
validation and defeats marshalling. -/
theorem c9_encode_branch_unreachable (srv : Server) (req : Request)
    (backend : BackendResult) (elapsed : ℚ)
    (hg : parseFormFloat req.guidance_scale 0 10 ≠ .ok .nan) :
    Response.text 500 .encodeFailed ∉ (generate srv req backend elapsed).responses := by
  by_cases hp : req.prompt = ""
  · unfold generate; rw [if_pos hp]; simp
  · cases hw : parseFormInt req.width 64 1024 with
    | error e => unfold generate; rw [if_neg hp, hw]; simp
    | ok w =>
      cases hh : parseFormInt req.height 64 1024 with
      | error e => unfold generate; rw [if_neg hp, hw, hh]; simp
      | ok h =>
        cases hst : parseFormInt req.num_steps 1 10 with
        | error e => unfold generate; rw [if_neg hp, hw, hh, hst]; simp
        | ok st =>
          cases hgv : parseFormFloat req.guidance_scale 0 10 with
          | error e => unfold generate; rw [if_neg hp, hw, hh, hst, hgv]; simp
          | ok v =>
            have hv : (PVal.float v).marshalable = true := by
              rcases parseFormFloat_ok_finite_or_nan hgv with hnan | ⟨q, hq⟩
              · exact absurd (hnan ▸ hgv) hg
              · rw [hq]; rfl
            rw [generate_valid_stage srv req backend elapsed w h st v hp hw hh hst hgv]
            exact stage2_no_encode req backend elapsed w h st v hv

/-- C9 amended-claim witness: with guidance 3.5 (not NaN) the encode
failure is absent from the trace. -/
theorem c9_encode_branch_unreachable_witness :
    parseFormFloat validReqNoSeed.guidance_scale 0 10 ≠ .ok .nan
    ∧ Response.text 500 .encodeFailed
        ∉ (generate defaultSrv validReqNoSeed okBackend 0).responses :=
  ⟨by decide,
   c9_encode_branch_unreachable defaultSrv validReqNoSeed okBackend 0 (by decide)⟩

/-- C7: validation proceeds in the fixed order prompt, width, height,
num_steps, guidance_scale, seed and short-circuits on the first failing
field: whenever some field is invalid, the first response written is a 400
whose message names the first invalid field in that order (later fields
play no part in it). -/
theorem c7_validation_order_first_failure (srv : Server) (req : Request)
    (backend : BackendResult) (elapsed : ℚ) (f : FormField)
    (hf : firstInvalid req = some f) :
    ∃ m, (generate srv req backend elapsed).responses.head? = some (.text 400 m)
      ∧ msgField m = some f := by
  unfold firstInvalid validationOrder at hf
  by_cases hp : req.prompt = ""
  · simp [List.find?, fieldValid, hp] at hf
    subst hf
    refine ⟨.promptRequired, ?_, rfl⟩
    unfold generate
    rw [if_pos hp]; rfl
  · cases hw : parseFormInt req.width 64 1024 with
    | error e =>
      simp [List.find?, fieldValid, hp, hw, exceptErr] at hf
      subst hf
      refine ⟨.widthInvalid e, ?_, rfl⟩
      unfold generate
      rw [if_neg hp, hw]; rfl
    | ok w =>
      cases hh : parseFormInt req.height 64 1024 with
      | error e =>
        simp [List.find?, fieldValid, hp, hw, hh, exceptErr] at hf
        subst hf
        refine ⟨.heightInvalid e, ?_, rfl⟩
        unfold generate
        rw [if_neg hp, hw, hh]; rfl
      | ok h =>
        cases hst : parseFormInt req.num_steps 1 10 with
        | error e =>
          simp [List.find?, fieldValid, hp, hw, hh, hst, exceptErr] at hf
          subst hf
          refine ⟨.stepsInvalid e, ?_, rfl⟩
          unfold generate
          rw [if_neg hp, hw, hh, hst]; rfl
        | ok st =>
          cases hgv : parseFormFloat req.guidance_scale 0 10 with
          | error e =>
            simp [List.find?, fieldValid, hp, hw, hh, hst, hgv, exceptErr] at hf
            subst hf
            refine ⟨.guidanceInvalid e, ?_, rfl⟩
            unfold generate
            rw [if_neg hp, hw, hh, hst, hgv]; rfl
          | ok v =>
            by_cases hs : req.seed = ""
            · simp [List.find?, fieldValid, hp, hw, hh, hst, hgv, hs, exceptErr] at hf
            · cases hsd : parseFormInt req.seed intMin intMax with
              | ok sd =>
                simp [List.find?, fieldValid, hp, hw, hh, hst, hgv, hs, hsd,
                  exceptErr] at hf
              | error e =>
                simp [List.find?, fieldValid, hp, hw, hh, hst, hgv, hs, hsd,
                  exceptErr] at hf
                subst hf
                refine ⟨.seedInvalid e, ?_, rfl⟩
                rw [generate_valid_stage srv req backend elapsed w h st v hp hw hh hst hgv]
                unfold stage2
                simp only [hs, hsd, ne_eq, not_false_eq_true, ite_true, if_true]
                repeat' (first | rfl | split)

/-- C7 witness: width and height both invalid — the 400 names width, the
first invalid field. -/
theorem c7_validation_order_first_failure_witness :
    firstInvalid doubleInvalidReq = some .width
    ∧ ∃ m, (generate defaultSrv doubleInvalidReq okBackend 0).responses.head?
          = some (.text 400 m)
        ∧ msgField m = some .width :=
  ⟨by decide,
   c7_validation_order_first_failure defaultSrv doubleInvalidReq okBackend 0 .width
     (by decide)⟩

/-- For nonnegative arguments `goRound` is within a half, above strictly. -/
theorem goRound_bounds_nonneg {y : ℚ} (hy : 0 ≤ y) :
    y - 1 / 2 < (goRound y : ℚ) ∧ (goRound y : ℚ) ≤ y + 1 / 2 := by
  unfold goRound
  rw [if_pos hy]
  constructor
  · have h := Int.lt_floor_add_one (y + 1 / 2)
    push_cast at h ⊢
    linarith
  · exact_mod_cast Int.floor_le (y + 1 / 2)

/-- For negative arguments `goRound` is within a half, below strictly. -/
theorem goRound_bounds_neg {y : ℚ} (hy : y < 0) :
    y - 1 / 2 ≤ (goRound y : ℚ) ∧ (goRound y : ℚ) < y + 1 / 2 := by
  unfold goRound
  rw [if_neg (not_le.mpr hy)]
  constructor
  · exact_mod_cast Int.le_ceil (y - 1 / 2)
  · have h := Int.ceil_lt_add_one (y - 1 / 2)
    push_cast at h ⊢
    linarith

/-- `goRound` is always within half of its argument. -/
theorem goRound_abs_sub_le (y : ℚ) : |y - (goRound y : ℚ)| ≤ 1 / 2 := by
  rcases le_or_lt 0 y with hy | hy
  · obtain ⟨h1, h2⟩ := goRound_bounds_nonneg hy
    rw [abs_le]
    constructor <;> linarith
  · obtain ⟨h1, h2⟩ := goRound_bounds_neg hy
    rw [abs_le]
    constructor <;> linarith

/-- `goRound y` is a nearest integer to `y`. -/
theorem goRound_nearest (y : ℚ) : NearestInt y (goRound y) := by
  intro m
  by_cases hm : m = goRound y
  · rw [hm]
  · have h2 : (1 : ℤ) ≤ |goRound y - m| :=
      Int.one_le_abs (sub_ne_zero.mpr (Ne.symm hm))
    have h1 : (1 : ℚ) ≤ |(goRound y : ℚ) - (m : ℚ)| := by exact_mod_cast h2
    have h3 : |y - (goRound y : ℚ)| ≤ 1 / 2 := goRound_abs_sub_le y
    have h4 : |(goRound y : ℚ) - m| ≤ |(goRound y : ℚ) - y| + |y - m| :=
      abs_sub_le _ _ _
    have h5 : |(goRound y : ℚ) - y| = |y - (goRound y : ℚ)| := abs_sub_comm _ _
    linarith

/-- At half-way points `goRound` picks the integer away from zero. -/
theorem goRound_tie (y : ℚ) : TieAway y (goRound y) := by
  intro htie
  rcases le_or_lt 0 y with hy | hy
  · obtain ⟨hgt, hle⟩ := goRound_bounds_nonneg hy
    have h1 : y - (goRound y : ℚ) = -(1 / 2) := by
      rcases (abs_eq (by norm_num : (0 : ℚ) ≤ 1 / 2)).mp htie with h | h
      · linarith
      · exact h
    have hn : (goRound y : ℚ) = y + 1 / 2 := by linarith
    rw [hn, abs_of_nonneg hy, abs_of_nonneg (by linarith : (0 : ℚ) ≤ y + 1 / 2)]
  · obtain ⟨hge, hlt⟩ := goRound_bounds_neg hy
    have h1 : y - (goRound y : ℚ) = 1 / 2 := by
      rcases (abs_eq (by norm_num : (0 : ℚ) ≤ 1 / 2)).mp htie with h | h
      · exact h
      · linarith
    have hn : (goRound y : ℚ) = y - 1 / 2 := by linarith
    rw [hn, abs_of_neg hy, abs_of_neg (by linarith : y - 1 / 2 < 0)]
    ring

/-- C8: the reported generation time is `roundFloat elapsed 2`, and
`roundFloat x 2` equals `n/100` where `n` is a nearest integer to `x*100`
with ties resolved away from zero; in particular an elapsed 1.2349 reports
as 1.23 and 1.2351 as 1.24. -/
theorem c8_round_two_decimals_half_away :
    (∀ x : ℚ, ∃ n : ℤ, roundFloat x 2 = (n : ℚ) / 100
      ∧ NearestInt (x * 100) n ∧ TieAway (x * 100) n)
    ∧ roundFloat (12349 / 10000) 2 = 123 / 100
    ∧ roundFloat (12351 / 10000) 2 = 124 / 100
    ∧ ∀ (srv : Server) (elapsed : ℚ),
        (generate srv validReqNoSeed okBackend elapsed).responses
          = [.render 200 "result.html" (some (.str "img")) (roundFloat elapsed 2)] := by
  refine ⟨?_, by decide, by decide, fun srv elapsed => rfl⟩
  intro x
  refine ⟨goRound (x * 100), ?_, goRound_nearest (x * 100), goRound_tie (x * 100)⟩
  show (goRound (x * 10 ^ 2) : ℚ) / 10 ^ 2 = (goRound (x * 100) : ℚ) / 100
  norm_num
